import Mathlib

/-!
Verification of the proxytrace ingestion pipeline (src/proxytrace/app.py).

The development shallowly embeds the pipeline's pure data path:
* JSON values produced by the line decoder (`JVal`),
* Python's `int(...)` / `float(...)` / `str.strip()` conversion semantics on
  those values (`pyInt`, `pyFloatChk`, `pyStrip`),
* the span builder `build_span`,
* the worker loop step (`workerStep`), the batch-collection loop of the
  exporter (`collectLoop`, `exporterRun`), the correlation-point derivation
  (`seenMap`, `pointsOf`), the breaker/retry-guarded dispatch
  (`breakerCall`, `retryCall`, `dispatchOnce`), and the per-connection
  newline framing loop (`drain`, `handleChunks`).

Stateful parts (queues, counters, wall-clock time, the network and the
time-series sink) are passed explicitly: the wall clock is an `Int`
parameter, queue contents are lists, counters are record fields, and the
outcomes of outbound calls are oracle functions.  JSON floating-point
literals are outside the model; no claim below depends on them.
-/

/-- A decoded JSON value as produced by `orjson.loads`.  Objects are finite
key/value lists with the keys unique (Python dicts). -/
inductive JVal where
  | jnull : JVal
  | jbool : Bool → JVal
  | jint : Int → JVal
  | jstr : String → JVal
  | jarr : List JVal → JVal
  | jobj : List (String × JVal) → JVal

/-- Dictionary lookup (`record[k]` on a dict with unique keys). -/
def lookupField : List (String × JVal) → String → Option JVal
  | [], _ => none
  | (k', v) :: rest, k => if k' = k then some v else lookupField rest k

/-- `record.get(k, d)`. -/
def rget (r : List (String × JVal)) (k : String) (d : JVal) : JVal :=
  (lookupField r k).getD d

/-- `k in record`. -/
def hasField (r : List (String × JVal)) (k : String) : Bool :=
  (lookupField r k).isSome

/-- Field lookup on an arbitrary JSON value: `none` when the value is not an
object or the key is absent. -/
def jlookup : JVal → String → Option JVal
  | .jobj f, k => lookupField f k
  | _, _ => none

/-- The ASCII whitespace characters stripped by Python's `str.strip()`. -/
def isPySpace (c : Char) : Bool :=
  c == ' ' || c == '\t' || c == '\n' || c == '\r' || c == '\x0b' || c == '\x0c'

/-- `str.strip()` / `bytes.strip()`: remove leading and trailing whitespace. -/
def pyStrip (l : List Char) : List Char :=
  ((l.dropWhile isPySpace).reverse.dropWhile isPySpace).reverse

/-- Value of a non-empty decimal digit string. -/
def digitsToNat (l : List Char) : Nat :=
  l.foldl (fun acc c => acc * 10 + (c.toNat - 48)) 0

/-- A non-empty all-digit character list, read as a natural number. -/
def parseDigits (ds : List Char) : Option Nat :=
  if ds.isEmpty then none
  else if ds.all Char.isDigit then some (digitsToNat ds) else none

/-- Python's `int(v)` on a decoded JSON value: identity on ints, `0`/`1` on
booleans, decimal-string parsing (whitespace stripped, optional sign) on
strings, and a raised `TypeError`/`ValueError` (modelled as `none`)
otherwise. -/
def pyInt : JVal → Option Int
  | .jint n => some n
  | .jbool b => some (if b then 1 else 0)
  | .jstr s =>
    match pyStrip s.data with
    | '+' :: ds => (parseDigits ds).map (fun n => (n : Int))
    | '-' :: ds => (parseDigits ds).map (fun n => -(n : Int))
    | ds => (parseDigits ds).map (fun n => (n : Int))
  | _ => none

/-- A value on which Python string methods may be called: strings only. -/
def pyStr : JVal → Option String
  | .jstr s => some s
  | _ => none

/-- Strip one optional leading sign character. -/
def stripSign : List Char → List Char
  | '+' :: t => t
  | '-' :: t => t
  | l => l

/-- Optional exponent suffix of a Python float literal. -/
def expTailOk : List Char → Bool
  | [] => true
  | 'e' :: t => let t := stripSign t; !t.isEmpty && t.all Char.isDigit
  | 'E' :: t => let t := stripSign t; !t.isEmpty && t.all Char.isDigit
  | _ => false

/-- Digits-with-optional-point mantissa followed by an optional exponent. -/
def mantissaOk (l : List Char) : Bool :=
  let intPart := l.takeWhile Char.isDigit
  let r1 := l.dropWhile Char.isDigit
  match r1 with
  | '.' :: r2 =>
    let fracPart := r2.takeWhile Char.isDigit
    let r3 := r2.dropWhile Char.isDigit
    (!intPart.isEmpty || !fracPart.isEmpty) && expTailOk r3
  | _ => !intPart.isEmpty && expTailOk r1

/-- Case-insensitive comparison against a fixed lowercase word. -/
def lowerIs (l : List Char) (s : List Char) : Bool :=
  l.map Char.toLower == s

/-- Whether Python's `float(string)` succeeds on this character list. -/
def pyFloatStrOk (l0 : List Char) : Bool :=
  let l := stripSign (pyStrip l0)
  lowerIs l ['i', 'n', 'f'] ||
  lowerIs l ['i', 'n', 'f', 'i', 'n', 'i', 't', 'y'] ||
  lowerIs l ['n', 'a', 'n'] ||
  mantissaOk l

/-- Whether Python's `float(v)` succeeds on a decoded JSON value.  Only
success is observable in the pipeline (the converted doubles are attribute
payload never inspected by any property here). -/
def pyFloatChk : JVal → Bool
  | .jint _ => true
  | .jbool _ => true
  | .jstr s => pyFloatStrOk s.data
  | _ => false

/-- The 16-hex-digit zero-padded lowercase representation of a natural
number (the reading of `format(n, '016x')` for non-negative `n`). -/
def hex16 (n : Nat) : String :=
  String.mk (List.replicate (16 - (Nat.toDigits 16 n).length) '0' ++ Nat.toDigits 16 n)

/-- Python's `format(i, '016x')`: sign-aware zero padding to width 16,
lowercase hex digits. -/
def format016x (i : Int) : String :=
  if i < 0 then
    String.mk ('-' :: (List.replicate (15 - (Nat.toDigits 16 i.natAbs).length) '0' ++
      Nat.toDigits 16 i.natAbs))
  else
    hex16 i.toNat

/-- Trace-id derivation of `build_span` (app.py lines 88-92):
`('2' + guid.replace('-','') + '0'*31)[:32]` for a logoff record and the
same with leading `'1'` for a logon record. -/
def mkTraceId (isLogoff : Bool) (guid : String) : String :=
  String.mk ((((if isLogoff then '2' else '1') ::
    guid.data.filter (fun c => c != '-')) ++ List.replicate 31 '0').take 32)

/-- The numeric conversions performed while building the span's attribute
list (app.py lines 116-126); the span is only produced when every one of
them succeeds, since a failed conversion raises inside `build_span`. -/
def attrsOk (r : List (String × JVal)) : Bool :=
  (pyInt (rget r "ProcCPUTimeMs" (.jint 0))).isSome &&
  pyFloatChk (rget r "ProcWorkingSetMB" (.jint 0)) &&
  pyFloatChk (rget r "ProcNetKBPS" (.jint 0)) &&
  (pyInt (rget r "ProcIOReadCount" (.jint 0))).isSome &&
  (pyInt (rget r "ProcIOWriteCount" (.jint 0))).isSome &&
  (pyInt (rget r "ProcIOReadMB" (.jint 0))).isSome &&
  (pyInt (rget r "ProcIOWriteMB" (.jint 0))).isSome &&
  (pyInt (rget r "ProcIOLatencyReadMs2" (.jint 0))).isSome &&
  (pyInt (rget r "ProcIOLatencyWriteMs2" (.jint 0))).isSome

/-- The observable content of the dict returned by `build_span`: the
correlation keys `_guid`/`_trace_id` and the OTLP span fields the
properties below speak about. -/
structure Span where
  guid : String
  traceId : String
  spanId : String
  parentSpanId : String
  name : JVal
  serviceName : JVal
  eventType : String
  startNs : Int
  endNs : Int

/-- `build_span(record)` (app.py lines 74-135) at wall-clock second `now`:
`none` models an exception escaping `build_span` (caught by the worker).
It raises when the decoded value is not a dict, when one of the `int(...)`
/ `float(...)` conversions fails, or when `SessionGUID` is present but not
a string (`.replace` on a non-string). -/
def build_span (now : Int) (v : JVal) : Option Span :=
  match v with
  | .jobj r =>
    match pyInt (rget r "ProcStartTimeRelativeMs" (.jint 0)),
          pyInt (rget r "ProcLifetimeMs" (.jint 0)),
          pyInt (rget r "ProcID" (.jint 0)),
          pyInt (rget r "ProcParentID" (.jint 0)),
          pyStr (rget r "SessionGUID" (.jstr "")) with
    | some startRel, some lifetime, some procId, some parentRaw, some guid =>
      if attrsOk r then
        let start_ns := now * 1000000000 + startRel * 1000000
        let end_ns := start_ns + lifetime * 1000000
        let span_id := format016x procId
        let parent_id := if parentRaw = 0 then "" else format016x parentRaw
        let is_logoff := hasField r "LogoffProcType"
        let service_name :=
          if is_logoff then
            rget r "LogoffProcType" (rget r "LogonProcType" (.jstr "unknown-service"))
          else rget r "LogonProcType" (.jstr "unknown-service")
        let event_type := if is_logoff then "logoff" else "logon"
        some { guid := guid
               traceId := mkTraceId is_logoff guid
               spanId := span_id
               parentSpanId := parent_id
               name := rget r "ProcName" (.jstr "unknown-span")
               serviceName := service_name
               eventType := event_type
               startNs := start_ns
               endNs := end_ns }
      else none
    | _, _, _, _, _ => none
  | _ => none

example : (build_span 0 (.jobj [("SessionGUID", .jstr "abcd1234-0000-0000-0000-000000000000"),
    ("ProcID", .jint 100), ("ProcParentID", .jint 0), ("ProcName", .jstr "explorer.exe"),
    ("ProcLifetimeMs", .jint 5000), ("LogonProcType", .jstr "Interactive")])).map Span.spanId
    = some "0000000000000064" := by decide

example : (build_span 0 (.jobj [("SessionGUID", .jstr "abcd1234-0000-0000-0000-000000000000"),
    ("ProcID", .jint 100), ("LogonProcType", .jstr "Interactive")])).map Span.traceId
    = some "1abcd123400000000000000000000000" := by decide

example : build_span 0 (.jint 5) = none := rfl

example : build_span 0 (.jobj [("ProcID", .jstr "abc")]) = none := rfl

example : (build_span 0 (.jobj [("ProcID", .jstr " 100 ")])).map Span.spanId
    = some "0000000000000064" := by decide

/-- Counters and span-queue contents a worker thread touches
(`records_received`, `records_parsed`, `span_queue`). -/
structure WorkerState where
  received : Nat
  parsed : Nat
  spanQueue : List Span

/-- One iteration of `worker` (app.py lines 225-240) on a dequeued line:
`records_received.inc()` runs first; then `orjson.loads` (the `decode`
oracle) and `build_span` run inside a `try` whose `except` catches every
exception, so a failure of either leaves the state otherwise unchanged; on
success `records_parsed.inc()` runs and the span is enqueued.  Totality of
this function is the no-exception-escapes part of the contract. -/
def workerStep (decode : String → Option JVal) (now : Int)
    (st : WorkerState) (line : String) : WorkerState :=
  let st1 : WorkerState := { st with received := st.received + 1 }
  match decode line with
  | none => st1
  | some v =>
    match build_span now v with
    | none => st1
    | some sp => { st1 with parsed := st1.parsed + 1, spanQueue := st1.spanQueue ++ [sp] }

/-- A worker processing a sequence of dequeued lines from process start. -/
def workerRun (decode : String → Option JVal) (now : Int) (lines : List String) : WorkerState :=
  lines.foldl (workerStep decode now) ⟨0, 0, []⟩

/-- Outcome of one `span_queue.get(timeout=...)` call as seen by the
exporter: either a span arrives in time or the wait ends empty (a
`queue.Empty`, i.e. the timeout window closed first). -/
inductive GetRes (α : Type) where
  | got : α → GetRes α
  | empty : GetRes α

/-- The inner collection loop of `BatchExporter.run` (app.py lines
178-184): keep pulling while the batch is below `BATCH_SIZE`; a pull that
ends empty breaks out; exhausting the oracle stream models the
`BATCH_TIMEOUT` deadline expiring.  Returns the batch and the unconsumed
stream. -/
def collectLoop {α : Type} (bs : Nat) (batch : List α) :
    List (GetRes α) → List α × List (GetRes α)
  | [] => (batch, [])
  | .empty :: rest =>
    if bs ≤ batch.length then (batch, .empty :: rest) else (batch, rest)
  | .got sp :: rest =>
    if bs ≤ batch.length then (batch, .got sp :: rest)
    else collectLoop bs (batch ++ [sp]) rest

theorem collectLoop_snd_length {α : Type} (bs : Nat) :
    ∀ (evs : List (GetRes α)) (batch : List α),
      (collectLoop bs batch evs).2.length ≤ evs.length := by
  intro evs
  induction evs with
  | nil => intro batch; simp [collectLoop]
  | cons e rest ih =>
    intro batch
    cases e with
    | got sp =>
      by_cases h : bs ≤ batch.length
      · simp [collectLoop, h]
      · simpa [collectLoop, h] using Nat.le_succ_of_le (ih (batch ++ [sp]))
    | empty =>
      by_cases h : bs ≤ batch.length
      · simp [collectLoop, h]
      · simp [collectLoop, h]

/-- The outer loop of `BatchExporter.run` (app.py lines 172-194) restricted
to batch formation: an empty first pull loops again; a successful first
pull starts a batch, the inner loop fills it, and the batch is dispatched
to `send_batch`.  The result is the list of dispatched batches, in order. -/
def exporterRun {α : Type} (bs : Nat) : List (GetRes α) → List (List α)
  | [] => []
  | .empty :: rest => exporterRun bs rest
  | .got sp :: rest =>
    (collectLoop bs [sp] rest).1 :: exporterRun bs (collectLoop bs [sp] rest).2
termination_by evs => evs.length
decreasing_by
  · simp
  · have h := collectLoop_snd_length bs rest [sp]
    simp only [List.length_cons]
    omega

example : exporterRun 2 [GetRes.got 10, .got 11, .got 12] = [[10, 11], [12]] := by
  simp [exporterRun, collectLoop]

example : exporterRun 2 [GetRes.got 10, .empty, .got 11, .got 12, .got 13] =
    [[10], [11, 12], [13]] := by
  simp [exporterRun, collectLoop]

/-- One written correlation point (app.py line 209):
`Point(metric_name).tag("guid", g).tag("trace_id", t).field("value", 0).time(ts)`. -/
structure CorrPoint where
  measurement : String
  guid : String
  traceId : String
  value : Int
  ts : Int
deriving DecidableEq

/-- Python dict assignment `m[k] = v` on an association list representing
the dict: update in place when the key exists, append otherwise. -/
def upsert : List (String × String) → String → String → List (String × String)
  | [], k, v => [(k, v)]
  | (k', v') :: rest, k, v =>
    if k' = k then (k, v) :: rest else (k', v') :: upsert rest k v

/-- The `seen` dict of `BatchExporter.run` (app.py lines 196-201): one
entry per guid occurring in the batch with truthy (non-empty) `_guid` and
`_trace_id`, mapping it to the last such trace id. -/
def seenMap (batch : List Span) : List (String × String) :=
  batch.foldl
    (fun m s => if s.guid ≠ "" ∧ s.traceId ≠ "" then upsert m s.guid s.traceId else m) []

/-- `t.startswith('1')`: the string's first character is `'1'`. -/
def startsWith1 (t : String) : Bool := t.data.head? == some '1'

/-- The point written for one `seen` entry (app.py lines 207-210). -/
def mkPoint (ts : Int) (g t : String) : CorrPoint :=
  { measurement :=
      if startsWith1 t then "uberAgent:logonTraceMap" else "uberAgent:logoffTraceMap"
    guid := g
    traceId := t
    value := 0
    ts := ts }

/-- The correlation points written for one successfully exported batch, in
iteration order of the `seen` dict. -/
def pointsOf (ts : Int) (batch : List Span) : List CorrPoint :=
  (seenMap batch).map (fun p => mkPoint ts p.1 p.2)

/-- `fail_max` of the circuit breaker (app.py line 56). -/
def failMax : Nat := 5

/-- `reset_timeout` of the circuit breaker, in seconds (app.py line 56). -/
def resetTimeout : Int := 30

/-- Modelled from the spec: the `tenacity` retry wrapper on `send_batch`
(`stop_after_attempt(3)`, retrying on any exception) — up to three
attempts, stopping at the first success.  `net k` is the oracle answer for
the k-th outbound HTTP POST of the process (a 2xx response); the result is
(overall success, number of HTTP calls issued). -/
def retryCall (net : Nat → Bool) (k : Nat) : Bool × Nat :=
  if net k then (true, 1)
  else if net (k + 1) then (true, 2)
  else (net (k + 2), 3)

/-- State of the circuit breaker: consecutive-failure count and, when
open, the time at which it opened. -/
structure BreakerState where
  failCount : Nat
  openedAt : Option Int
deriving DecidableEq

/-- The initial (closed) breaker. -/
def breaker0 : BreakerState := ⟨0, none⟩

/-- Modelled from the spec: one call through the `pybreaker` circuit
breaker guarding `send_batch` at time `t`, where `inner` is whether the
wrapped (retry-wrapped) call would succeed.  Closed: the call is invoked;
a success resets the failure count, a failure increments it and opens the
breaker once `failMax` consecutive failures are reached.  Open: within
`resetTimeout` of opening every call fails immediately without invoking
the wrapped function; after the window one half-open trial call is
allowed, closing the breaker on success and re-opening it on failure.
Returns (new state, wrapped call invoked?, call succeeded?). -/
def breakerCall (b : BreakerState) (t : Int) (inner : Bool) :
    BreakerState × Bool × Bool :=
  match b.openedAt with
  | some t0 =>
    if t - t0 < resetTimeout then (b, false, false)
    else if inner then (⟨0, none⟩, true, true)
    else (⟨b.failCount, some t⟩, true, false)
  | none =>
    if inner then (⟨0, none⟩, true, true)
    else if failMax ≤ b.failCount + 1 then (⟨b.failCount + 1, some t⟩, true, false)
    else (⟨b.failCount + 1, none⟩, true, false)

/-- Exporter-side counters and outbound-call bookkeeping: breaker state,
`batches_sent`, `export_failures`, and the number of HTTP POSTs issued. -/
structure ExpState where
  breaker : BreakerState
  sent : Nat
  failures : Nat
  httpCalls : Nat
deriving DecidableEq

/-- The initial exporter state. -/
def expState0 : ExpState := ⟨breaker0, 0, 0, 0⟩

/-- The `try`/`except` of `BatchExporter.run` for one dispatched batch
(app.py lines 193-221) at time `t`: `send_batch` runs behind the breaker
and the retry wrapper; on success `batches_sent.inc()` runs and the
correlation points are written — a raised sink write (`writeRaises`) lands
in the same `except` handler, which increments `export_failures`; on a
send failure (retries exhausted or breaker open) `export_failures.inc()`
runs and no point is written. -/
def dispatchOnce (net : Nat → Bool) (writeRaises : Bool) (st : ExpState) (t : Int) :
    ExpState :=
  let res := breakerCall st.breaker t (retryCall net st.httpCalls).1
  { breaker := res.1
    sent := st.sent + (if res.2.2 then 1 else 0)
    failures := st.failures + (if res.2.2 then (if writeRaises then 1 else 0) else 1)
    httpCalls := st.httpCalls + (if res.2.1 then (retryCall net st.httpCalls).2 else 0) }

/-- A sequence of batch dispatches at the given times, with no sink write
raising. -/
def dispatchRun (net : Nat → Bool) (ts : List Int) : ExpState :=
  ts.foldl (dispatchOnce net false) expState0

/-- An export endpoint that fails every call (HTTP 500 on every POST). -/
def netDown : Nat → Bool := fun _ => false

example : dispatchRun netDown [0, 1, 2, 3, 4] =
    ⟨⟨5, some 4⟩, 0, 5, 15⟩ := by decide

example : dispatchRun netDown [0, 1, 2, 3, 4, 5] =
    ⟨⟨5, some 4⟩, 0, 6, 15⟩ := by decide

/-- Character-level test `c != '\n'` used by the framing loop. -/
def notNl (c : Char) : Bool := c != '\n'

/-- Truthiness of `line.strip()`: the line has a non-whitespace byte. -/
def stripTruthy (line : List Char) : Bool := !(pyStrip line).isEmpty


/-- `buf.split(b'\n', 1)`: split the buffer at its first newline, when one
is embedded (`b'\n' in buf`). -/
def splitFirstNl (l : List Char) : Option (List Char × List Char) :=
  match l.dropWhile notNl with
  | [] => none
  | _ :: rest => some (l.takeWhile notNl, rest)

/-- The inner `while b'\n' in buf` loop of `handle_client` (app.py lines
252-255), fuelled by the buffer length (one unit per extracted line, which
always suffices): split the buffer at each newline, enqueue every
extracted line whose `strip()` is truthy (the line itself, unmodified),
and return the remaining partial line as the new buffer together with the
enqueued lines in order. -/
def drainF : Nat → List Char → List Char × List (List Char)
  | 0, l => (l, [])
  | fuel + 1, l =>
    match splitFirstNl l with
    | none => (l, [])
    | some (line, rest) =>
      let res := drainF fuel rest
      (res.1, (if stripTruthy line then [line] else []) ++ res.2)

/-- The inner buffer-splitting loop at its canonical (always sufficient)
fuel. -/
def drain (l : List Char) : List Char × List (List Char) := drainF l.length l

/-- The full per-connection reader loop of `handle_client` (app.py lines
245-255): each received chunk is appended to the carried buffer, which is
then drained of complete lines.  Returns the final buffer and all enqueued
lines in order. -/
def handleChunks (buf : List Char) : List (List Char) → List Char × List (List Char)
  | [] => (buf, [])
  | c :: cs =>
    let r1 := drain (buf ++ c)
    let r2 := handleChunks r1.1 cs
    (r2.1, r1.2 ++ r2.2)

/-- Specification-side view of a byte stream: its decomposition into
newline-separated segments (`n` newlines yield `n + 1` segments; the last
segment is the unterminated remainder, possibly empty).  Stated from the
spec's wording, independently of the reader loop, for comparison with
it. -/
def specSegsF : Nat → List Char → List (List Char)
  | 0, l => [l]
  | fuel + 1, l =>
    match splitFirstNl l with
    | none => [l]
    | some (line, rest) => line :: specSegsF fuel rest

/-- Newline-separated segments of a byte stream at canonical fuel. -/
def specSegs (l : List Char) : List (List Char) := specSegsF l.length l

example : drain "ab\n \ncd\ne".data = ("e".data, ["ab".data, "cd".data]) := by decide

example : handleChunks [] ["ab\nc".data, "d\n".data] = ([], ["ab".data, "cd".data]) := by
  decide

example : specSegs "ab\n\ncd\ne".data = ["ab".data, [], "cd".data, "e".data] := by decide

/-! ### Characterisation of a successful `build_span` -/

theorem build_span_some (now : Int) (v : JVal) (s : Span)
    (h : build_span now v = some s) :
    ∃ r startRel lifetime procId parentRaw guid,
      v = .jobj r ∧
      pyInt (rget r "ProcStartTimeRelativeMs" (.jint 0)) = some startRel ∧
      pyInt (rget r "ProcLifetimeMs" (.jint 0)) = some lifetime ∧
      pyInt (rget r "ProcID" (.jint 0)) = some procId ∧
      pyInt (rget r "ProcParentID" (.jint 0)) = some parentRaw ∧
      pyStr (rget r "SessionGUID" (.jstr "")) = some guid ∧
      attrsOk r = true ∧
      s.guid = guid ∧
      s.traceId = mkTraceId (hasField r "LogoffProcType") guid ∧
      s.spanId = format016x procId ∧
      s.parentSpanId = (if parentRaw = 0 then "" else format016x parentRaw) ∧
      s.eventType = (if hasField r "LogoffProcType" then "logoff" else "logon") := by
  cases v with
  | jobj r =>
    refine ⟨r, ?_⟩
    simp only [build_span] at h
    cases h1 : pyInt (rget r "ProcStartTimeRelativeMs" (.jint 0)) with
    | none => rw [h1] at h; simp at h
    | some startRel =>
    cases h2 : pyInt (rget r "ProcLifetimeMs" (.jint 0)) with
    | none => rw [h1, h2] at h; simp at h
    | some lifetime =>
    cases h3 : pyInt (rget r "ProcID" (.jint 0)) with
    | none => rw [h1, h2, h3] at h; simp at h
    | some procId =>
    cases h4 : pyInt (rget r "ProcParentID" (.jint 0)) with
    | none => rw [h1, h2, h3, h4] at h; simp at h
    | some parentRaw =>
    cases h5 : pyStr (rget r "SessionGUID" (.jstr "")) with
    | none => rw [h1, h2, h3, h4, h5] at h; simp at h
    | some guid =>
    rw [h1, h2, h3, h4, h5] at h
    by_cases hA : attrsOk r
    · simp only [hA, if_true, Option.some.injEq] at h
      subst h
      exact ⟨startRel, lifetime, procId, parentRaw, guid, rfl, rfl, rfl, rfl, rfl, rfl,
        hA, rfl, rfl, rfl, rfl, rfl⟩
    · simp [hA] at h
  | jnull => simp [build_span] at h
  | jbool b => simp [build_span] at h
  | jint n => simp [build_span] at h
  | jstr t => simp [build_span] at h
  | jarr xs => simp [build_span] at h

/-! ### Span-id and parent-span-id derivation (claims C2, C3) -/

theorem format016x_natCast (n : Nat) : format016x (n : Int) = hex16 n := by
  have hn : ¬ ((n : Int) < 0) := by omega
  simp [format016x, hn]

/-- The default span used only to name concrete spans produced by
`build_span` on sample records. -/
def defaultSpan : Span := ⟨"", "", "", "", .jnull, .jnull, "", 0, 0⟩

/-- A sample logon record (the spec's scenario input, at wall-clock 0). -/
def recA : JVal := .jobj [("SessionGUID", .jstr "abcd1234-0000-0000-0000-000000000000"),
  ("ProcID", .jint 100), ("ProcParentID", .jint 0), ("ProcName", .jstr "explorer.exe"),
  ("ProcLifetimeMs", .jint 5000), ("LogonProcType", .jstr "Interactive")]

/-- The span built from `recA`. -/
def spanA : Span := (build_span 0 recA).getD defaultSpan

/-- C2: for every record whose `ProcID` field is the integer `n ≥ 0`, the
`spanId` field of the span built by `build_span` equals the 16-character
zero-padded lowercase hexadecimal representation of `n`; a record with
`ProcID = 100` yields `"0000000000000064"` and a record with no `ProcID`
field yields `"0000000000000000"`. -/
theorem C2_span_id (now : Int) (v : JVal) (s : Span) (h : build_span now v = some s) :
    (∀ n : Nat, jlookup v "ProcID" = some (.jint n) → s.spanId = hex16 n) ∧
    (jlookup v "ProcID" = none → s.spanId = hex16 0) ∧
    hex16 100 = "0000000000000064" ∧ hex16 0 = "0000000000000000" := by
  obtain ⟨r, startRel, lifetime, procId, parentRaw, guid, hv, _, _, h3, _, _, _, _, _,
    hspan, _, _⟩ := build_span_some now v s h
  subst hv
  refine ⟨?_, ?_, by decide, by decide⟩
  · intro n hlook
    simp only [jlookup] at hlook
    rw [show rget r "ProcID" (.jint 0) = .jint n by simp [rget, hlook]] at h3
    simp only [pyInt, Option.some.injEq] at h3
    rw [hspan, ← h3, format016x_natCast]
  · intro hlook
    simp only [jlookup] at hlook
    rw [show rget r "ProcID" (.jint 0) = .jint 0 by simp [rget, hlook]] at h3
    simp only [pyInt, Option.some.injEq] at h3
    rw [hspan, ← h3]
    decide

theorem C2_span_id_witness :
    jlookup recA "ProcID" = some (.jint 100) ∧ build_span 0 recA = some spanA ∧
      spanA.spanId = hex16 100 ∧ spanA.spanId = "0000000000000064" :=
  ⟨rfl, rfl, (C2_span_id 0 recA spanA rfl).1 100 rfl, by decide⟩

/-- A sample record with a nonzero parent process id. -/
def recB : JVal := .jobj [("SessionGUID", .jstr "abcd1234-0000-0000-0000-000000000000"),
  ("ProcID", .jint 3), ("ProcParentID", .jint 7), ("LogonProcType", .jstr "Interactive")]

/-- The span built from `recB`. -/
def spanB : Span := (build_span 0 recB).getD defaultSpan

/-- C3: for every record whose `ProcParentID` field is `0` or absent, the
`parentSpanId` of the built span is empty, and for every record whose
`ProcParentID` is an integer `p > 0`, the `parentSpanId` equals the
16-character zero-padded lowercase hexadecimal representation of `p`. -/
theorem C3_parent_span_id (now : Int) (v : JVal) (s : Span)
    (h : build_span now v = some s) :
    ((jlookup v "ProcParentID" = some (.jint 0) ∨ jlookup v "ProcParentID" = none) →
      s.parentSpanId = "") ∧
    (∀ p : Nat, 0 < p → jlookup v "ProcParentID" = some (.jint p) →
      s.parentSpanId = hex16 p) := by
  obtain ⟨r, startRel, lifetime, procId, parentRaw, guid, hv, _, _, _, h4, _, _, _, _,
    _, hpar, _⟩ := build_span_some now v s h
  subst hv
  constructor
  · intro hlook
    have hz : rget r "ProcParentID" (.jint 0) = .jint 0 := by
      rcases hlook with hl | hl <;> simp only [jlookup] at hl <;> simp [rget, hl]
    rw [hz] at h4
    simp only [pyInt, Option.some.injEq] at h4
    rw [hpar, if_pos h4.symm]
  · intro p hp hlook
    simp only [jlookup] at hlook
    rw [show rget r "ProcParentID" (.jint 0) = .jint p by simp [rget, hlook]] at h4
    simp only [pyInt, Option.some.injEq] at h4
    have hne : parentRaw ≠ 0 := by
      rw [← h4]
      exact_mod_cast Nat.pos_iff_ne_zero.mp hp
    rw [hpar, if_neg hne, ← h4, format016x_natCast]

theorem C3_parent_span_id_witness :
    build_span 0 recB = some spanB ∧ (0 : Nat) < 7 ∧
      spanB.parentSpanId = hex16 7 ∧ spanB.parentSpanId = "0000000000000007" ∧
      build_span 0 recA = some spanA ∧ spanA.parentSpanId = "" :=
  ⟨rfl, by decide, (C3_parent_span_id 0 recB spanB rfl).2 7 (by decide) rfl, by decide,
    rfl, (C3_parent_span_id 0 recA spanA rfl).1 (Or.inl rfl)⟩

/-! ### Trace-id derivation (claim C1) -/

/-- A hexadecimal digit (either case). -/
def isHexDigit (c : Char) : Bool :=
  c.isDigit || ('a' ≤ c && c ≤ 'f') || ('A' ≤ c && c ≤ 'F')

/-- A lowercase hexadecimal digit. -/
def isLowerHexDigit (c : Char) : Bool :=
  c.isDigit || ('a' ≤ c && c ≤ 'f')

/-- `'LogoffProcType' in record`: the event-type marker of a record. -/
def recIsLogoff (v : JVal) : Bool :=
  match v with
  | .jobj r => hasField r "LogoffProcType"
  | _ => false

theorem mkTraceId_length (b : Bool) (g : String) : (mkTraceId b g).length = 32 := by
  unfold mkTraceId String.length
  simp [List.length_take]

theorem mkTraceId_ne (g : String) : mkTraceId false g ≠ mkTraceId true g := by
  unfold mkTraceId
  intro hcon
  rw [show (32 : Nat) = 31 + 1 from rfl] at hcon
  simp only [if_true, if_false, Bool.false_eq_true, List.cons_append,
    List.take_succ_cons] at hcon
  injection hcon with hl
  injection hl with h1 _
  exact absurd h1 (by decide)

theorem mkTraceId_hex (b : Bool) (g : String)
    (hg : ∀ c ∈ g.data, isLowerHexDigit c = true ∨ c = '-') :
    ∀ c ∈ (mkTraceId b g).data, isLowerHexDigit c = true := by
  intro c hc
  unfold mkTraceId at hc
  have hc' := List.take_subset 32 _ hc
  rcases List.mem_append.mp hc' with hc2 | hc2
  · rcases List.mem_cons.mp hc2 with hc3 | hc3
    · subst hc3
      cases b <;> decide
    · have := List.mem_filter.mp hc3
      rcases hg c this.1 with hh | hh
      · exact hh
      · subst hh
        simp at this
  · rw [List.eq_of_mem_replicate hc2]
    decide

/-- C1 (amended): the trace id built for a record is a pure function of
`(SessionGUID, presence of LogoffProcType)`: for every two records with
the same `SessionGUID` value and the same event type, `build_span` yields
the same trace id; the trace id is always exactly 32 characters, and
consists of lowercase hex digits whenever the `SessionGUID` consists of
lowercase hex digits and dashes; and for records with the same
`SessionGUID`, the trace id of a logon record differs from the trace id
of a logoff record. -/
theorem C1_trace_id (t1 t2 : Int) (r1 r2 : JVal) (s1 s2 : Span)
    (h1 : build_span t1 r1 = some s1) (h2 : build_span t2 r2 = some s2)
    (hg : jlookup r1 "SessionGUID" = jlookup r2 "SessionGUID") :
    s1.traceId.length = 32 ∧
    ((∀ c ∈ s1.guid.data, isLowerHexDigit c = true ∨ c = '-') →
      ∀ c ∈ s1.traceId.data, isLowerHexDigit c = true) ∧
    (recIsLogoff r1 = recIsLogoff r2 → s1.traceId = s2.traceId) ∧
    (recIsLogoff r1 = false → recIsLogoff r2 = true → s1.traceId ≠ s2.traceId) := by
  obtain ⟨f1, _, _, _, _, g1, hv1, _, _, _, _, hg1, _, hguid1, htr1, _, _, _⟩ :=
    build_span_some t1 r1 s1 h1
  obtain ⟨f2, _, _, _, _, g2, hv2, _, _, _, _, hg2, _, hguid2, htr2, _, _, _⟩ :=
    build_span_some t2 r2 s2 h2
  subst hv1; subst hv2
  simp only [jlookup] at hg
  have hgeq : g1 = g2 := by
    rw [show rget f1 "SessionGUID" (.jstr "") = rget f2 "SessionGUID" (.jstr "") by
      simp [rget, hg]] at hg1
    rw [hg1] at hg2
    exact Option.some.inj hg2
  refine ⟨?_, ?_, ?_, ?_⟩
  · rw [htr1]; exact mkTraceId_length _ _
  · rw [hguid1, htr1]; exact mkTraceId_hex _ _
  · intro hev
    simp only [recIsLogoff] at hev
    rw [htr1, htr2, hgeq, hev]
  · intro hev1 hev2
    simp only [recIsLogoff] at hev1 hev2
    rw [htr1, htr2, hgeq, hev1, hev2]
    exact mkTraceId_ne g2

/-- A record whose session guid contains characters that are not
hexadecimal digits. -/
def recZ : JVal := .jobj [("SessionGUID", .jstr "zz")]

/-- The span built from `recZ`. -/
def spanZ : Span := (build_span 0 recZ).getD defaultSpan

/-- C1 counterexample: a record whose `SessionGUID` is `"zz"` builds a
span whose trace id is 32 characters long but is not made of hexadecimal
characters, so the trace id that `build_span` yields is not in general a
32-hex-character string. -/
theorem C1_counterexample :
    build_span 0 recZ = some spanZ ∧ spanZ.traceId.length = 32 ∧
      spanZ.traceId.data.all isHexDigit = false :=
  ⟨rfl, by decide, by decide⟩

/-- A sample logon record carrying only a session guid. -/
def recL : JVal := .jobj [("SessionGUID", .jstr "abcd1234-0000-0000-0000-000000000000"),
  ("LogonProcType", .jstr "Interactive")]

/-- The logoff record with the same session guid as `recL`. -/
def recLo : JVal := .jobj [("SessionGUID", .jstr "abcd1234-0000-0000-0000-000000000000"),
  ("LogoffProcType", .jstr "SessionEnd")]

/-- The span built from `recL`. -/
def spanL : Span := (build_span 0 recL).getD defaultSpan

/-- The span built from `recLo`. -/
def spanLo : Span := (build_span 7 recLo).getD defaultSpan

theorem C1_trace_id_witness :
    spanL.traceId.length = 32 ∧ spanL.traceId = spanL.traceId ∧
      spanL.traceId ≠ spanLo.traceId :=
  ⟨(C1_trace_id 0 0 recL recL spanL spanL rfl rfl rfl).1,
    (C1_trace_id 0 0 recL recL spanL spanL rfl rfl rfl).2.2.1 rfl,
    (C1_trace_id 0 7 recL recLo spanL spanLo rfl rfl rfl).2.2.2 rfl rfl⟩

/-! ### Worker error handling (claims C4, C10) -/

/-- C4: for every dequeued line that is not valid JSON (the decode oracle
returns `none`, modelling the `orjson.loads` exception), the worker
increments the received-record counter exactly once, leaves the
parsed-record counter unchanged, and enqueues nothing onto the span queue;
totality of `workerStep` is the no-exception-escapes part of the
contract. -/
theorem C4_invalid_json (decode : String → Option JVal) (now : Int)
    (st : WorkerState) (line : String) (h : decode line = none) :
    workerStep decode now st line = { st with received := st.received + 1 } := by
  simp [workerStep, h]

theorem C4_invalid_json_witness :
    (fun (_ : String) => (none : Option JVal)) "not json" = none ∧
      workerStep (fun _ => none) 0 ⟨0, 0, []⟩ "not json" = ⟨1, 0, []⟩ :=
  ⟨rfl, C4_invalid_json (fun _ => none) 0 ⟨0, 0, []⟩ "not json" rfl⟩

/-- C10 (part): a line that decodes but on which `build_span` raises is
handled exactly like a decode failure. -/
theorem workerStep_build_fail (decode : String → Option JVal) (now : Int)
    (st : WorkerState) (line : String) (v : JVal)
    (hdec : decode line = some v) (hbuild : build_span now v = none) :
    workerStep decode now st line = { st with received := st.received + 1 } := by
  simp [workerStep, hdec, hbuild]

/-- C10 (part): one worker step increases the received counter by exactly
one and the parsed counter by at most one. -/
theorem workerStep_counts (decode : String → Option JVal) (now : Int)
    (st : WorkerState) (line : String) :
    (workerStep decode now st line).received = st.received + 1 ∧
      (workerStep decode now st line).parsed ≤ st.parsed + 1 := by
  unfold workerStep
  cases decode line with
  | none => simp
  | some v =>
    cases hb : build_span now v with
    | none => simp [hb]
    | some sp => simp [hb]

theorem workerRun_parsed_le (decode : String → Option JVal) (now : Int)
    (lines : List String) :
    ∀ st : WorkerState, st.parsed ≤ st.received →
      (lines.foldl (workerStep decode now) st).parsed ≤
        (lines.foldl (workerStep decode now) st).received := by
  induction lines with
  | nil => intro st h; simpa using h
  | cons line rest ih =>
    intro st h
    simp only [List.foldl_cons]
    apply ih
    have hc := workerStep_counts decode now st line
    omega

/-- C10: a dequeued line that decodes as valid JSON but on which span
construction fails (a JSON value that is not an object, or a `ProcID`
that is a non-numeric string) is treated exactly like a decode failure:
the received-record counter is incremented, the parsed-record counter is
not, no span is enqueued and no exception escapes (`workerStep` is
total); consequently the parsed-record counter never exceeds the
received-record counter. -/
theorem C10_build_failure :
    (∀ (decode : String → Option JVal) (now : Int) (st : WorkerState)
      (line : String) (v : JVal), decode line = some v → build_span now v = none →
        workerStep decode now st line = { st with received := st.received + 1 }) ∧
    (∀ (decode : String → Option JVal) (now : Int) (lines : List String),
      (workerRun decode now lines).parsed ≤ (workerRun decode now lines).received) ∧
    build_span 0 (.jint 5) = none ∧
    build_span 0 (.jobj [("ProcID", .jstr "abc")]) = none :=
  ⟨workerStep_build_fail,
    fun decode now lines =>
      workerRun_parsed_le decode now lines ⟨0, 0, []⟩ (Nat.le_refl 0),
    rfl, rfl⟩

theorem C10_build_failure_witness :
    (fun (_ : String) => some (JVal.jint 5)) "5" = some (.jint 5) ∧
      build_span 0 (.jint 5) = none ∧
      workerStep (fun _ => some (.jint 5)) 0 ⟨3, 2, []⟩ "5" = ⟨4, 2, []⟩ ∧
      (workerRun (fun _ => some (.jint 5)) 0 ["5", "5"]).parsed ≤
        (workerRun (fun _ => some (.jint 5)) 0 ["5", "5"]).received :=
  ⟨rfl, rfl,
    C10_build_failure.1 (fun _ => some (.jint 5)) 0 ⟨3, 2, []⟩ "5" (.jint 5) rfl rfl,
    C10_build_failure.2.1 (fun _ => some (.jint 5)) 0 ["5", "5"]⟩

/-! ### Batch size and timeout bounds (claim C5) -/

theorem collectLoop_length_bounds {α : Type} (bs : Nat) :
    ∀ (evs : List (GetRes α)) (batch : List α),
      batch.length ≤ (collectLoop bs batch evs).1.length ∧
      (collectLoop bs batch evs).1.length ≤ max bs batch.length := by
  intro evs
  induction evs with
  | nil => intro batch; simp [collectLoop]
  | cons e rest ih =>
    intro batch
    cases e with
    | got sp =>
      by_cases h : bs ≤ batch.length
      · simp [collectLoop, h]
      · have := ih (batch ++ [sp])
        simp only [collectLoop, h, if_false] at this ⊢
        simp only [List.length_append, List.length_cons, List.length_nil] at this ⊢
        omega
    | empty =>
      by_cases h : bs ≤ batch.length <;> simp [collectLoop, h]

theorem collectLoop_all_got {α : Type} (bs : Nat) :
    ∀ (spans : List α) (batch : List α), batch.length ≤ bs →
      collectLoop bs batch (spans.map GetRes.got) =
        (batch ++ spans.take (bs - batch.length),
          (spans.drop (bs - batch.length)).map GetRes.got) := by
  intro spans
  induction spans with
  | nil => intro batch h; simp [collectLoop]
  | cons sp rest ih =>
    intro batch h
    by_cases hfull : bs ≤ batch.length
    · have hbl : batch.length = bs := Nat.le_antisymm h hfull
      simp [collectLoop, hfull, hbl]
    · have hlt : batch.length < bs := Nat.lt_of_le_of_ne h (fun hc => hfull (Nat.le_of_eq hc.symm))
      have hsub : bs - batch.length = (bs - (batch.length + 1)) + 1 := by omega
      simp only [List.map_cons, collectLoop, hfull, if_false]
      rw [ih (batch ++ [sp]) (by simpa using hlt), hsub]
      simp [List.take_succ_cons, List.drop_succ_cons, List.append_assoc]

theorem exporterRun_batch_bounds {α : Type} (bs : Nat) (hbs : 1 ≤ bs) :
    ∀ (n : Nat) (evs : List (GetRes α)), evs.length ≤ n →
      ∀ b ∈ exporterRun bs evs, 1 ≤ b.length ∧ b.length ≤ bs := by
  intro n
  induction n with
  | zero =>
    intro evs hlen b hb
    rw [List.length_eq_zero.mp (Nat.le_zero.mp hlen)] at hb
    simp [exporterRun] at hb
  | succ n ih =>
    intro evs hlen b hb
    cases evs with
    | nil => simp [exporterRun] at hb
    | cons e rest =>
      cases e with
      | empty =>
        rw [show exporterRun bs (GetRes.empty :: rest) = exporterRun bs rest from by
          simp [exporterRun]] at hb
        exact ih rest (by simp at hlen; omega) b hb
      | got sp =>
        rw [show exporterRun bs (GetRes.got sp :: rest) =
            (collectLoop bs [sp] rest).1 :: exporterRun bs (collectLoop bs [sp] rest).2
          from by simp [exporterRun]] at hb
        rcases List.mem_cons.mp hb with hb1 | hb2
        · subst hb1
          have hc := collectLoop_length_bounds bs rest [sp]
          simp only [List.length_cons, List.length_nil] at hc
          omega
        · have hr := collectLoop_snd_length bs rest [sp]
          exact ih _ (by simp at hlen; omega) b hb2

/-- C5: every batch the exporter dispatches to `send_batch` is non-empty
and has at most `BATCH_SIZE` spans (for any positive `BATCH_SIZE`
configuration), and when `BATCH_SIZE + 1` spans are available from the
span queue with no empty pull in between (i.e. within one `BATCH_TIMEOUT`
window), the exporter dispatches at least two batches, the first
containing exactly `BATCH_SIZE` spans. -/
theorem C5_batches {α : Type} (bs : Nat) (hbs : 1 ≤ bs) :
    (∀ (evs : List (GetRes α)) (b : List α), b ∈ exporterRun bs evs →
      1 ≤ b.length ∧ b.length ≤ bs) ∧
    (∀ spans : List α, spans.length = bs + 1 →
      2 ≤ (exporterRun bs (spans.map GetRes.got)).length ∧
      (exporterRun bs (spans.map GetRes.got)).head? = some (spans.take bs) ∧
      (spans.take bs).length = bs) := by
  constructor
  · intro evs b hb
    exact exporterRun_batch_bounds bs hbs evs.length evs (Nat.le_refl _) b hb
  · intro spans hlen
    cases spans with
    | nil => simp at hlen
    | cons s0 rest =>
      have hrest : rest.length = bs := by simpa using hlen
      have hcg := collectLoop_all_got bs rest [s0] (by simpa using hbs)
      simp only [List.length_cons, List.length_nil, Nat.zero_add] at hcg
      have hd : (rest.drop (bs - 1)).length = 1 := by
        rw [List.length_drop]; omega
      obtain ⟨x, hx⟩ := List.length_eq_one.mp hd
      have hrun1 : exporterRun bs ((s0 :: rest).map GetRes.got) =
          ([s0] ++ rest.take (bs - 1)) :: exporterRun bs ((rest.drop (bs - 1)).map GetRes.got) := by
        simp only [List.map_cons]
        rw [show exporterRun bs (GetRes.got s0 :: rest.map GetRes.got) =
            (collectLoop bs [s0] (rest.map GetRes.got)).1 ::
              exporterRun bs (collectLoop bs [s0] (rest.map GetRes.got)).2
          from by simp [exporterRun]]
        rw [hcg]
      have hrun2 : exporterRun bs ((rest.drop (bs - 1)).map GetRes.got) = [[x]] := by
        rw [hx]
        simp only [List.map_cons, List.map_nil]
        rw [show exporterRun bs [GetRes.got x] =
            (collectLoop bs [x] []).1 :: exporterRun bs (collectLoop bs [x] []).2
          from by simp [exporterRun]]
        simp [collectLoop, exporterRun]
      have htake : (s0 :: rest).take bs = [s0] ++ rest.take (bs - 1) := by
        cases bs with
        | zero => omega
        | succ m =>
          rw [List.take_succ_cons]
          simp only [List.singleton_append, List.cons.injEq, true_and]
          congr 1
      rw [hrun1, hrun2, htake]
      refine ⟨by simp, by simp, ?_⟩
      simp only [List.length_append, List.length_take, List.length_cons, List.length_nil]
      omega

theorem C5_batches_witness :
    (1 : Nat) ≤ 2 ∧ ([10, 11, 12] : List Nat).length = 2 + 1 ∧
      2 ≤ (exporterRun 2 ([10, 11, 12].map GetRes.got)).length ∧
      (exporterRun 2 (([10, 11, 12] : List Nat).map GetRes.got)).head? =
        some ([10, 11, 12].take 2) ∧
      ∀ b ∈ exporterRun 2 ([GetRes.got 10, .empty, .got 11] : List (GetRes Nat)),
        1 ≤ b.length ∧ b.length ≤ 2 :=
  ⟨by decide, by decide,
    ((C5_batches 2 (by decide)).2 [10, 11, 12] rfl).1,
    ((C5_batches 2 (by decide)).2 [10, 11, 12] rfl).2.1,
    fun b hb => (C5_batches 2 (by decide)).1 [GetRes.got 10, .empty, .got 11] b hb⟩

/-! ### Circuit breaker fast-fail (claim C6) -/

/-- C6: while the breaker is open and the reset window has not elapsed,
every send attempt completes without invoking the wrapped (network) call
and is counted as a failure immediately; and in the scenario where the
export endpoint fails every call, the five first batches each exhaust the
3-attempt retry budget (15 HTTP calls in total) and open the breaker on
the 5th consecutive failure, so the 6th batch within the reset window
fails with no additional outbound HTTP call. -/
theorem C6_breaker :
    (∀ (b : BreakerState) (t t0 : Int) (inner : Bool), b.openedAt = some t0 →
      t - t0 < resetTimeout → breakerCall b t inner = (b, false, false)) ∧
    (∀ t1 t2 t3 t4 t5 t6 : Int, t6 - t5 < resetTimeout →
      dispatchRun netDown [t1, t2, t3, t4, t5] = ⟨⟨5, some t5⟩, 0, 5, 15⟩ ∧
      dispatchRun netDown [t1, t2, t3, t4, t5, t6] = ⟨⟨5, some t5⟩, 0, 6, 15⟩) := by
  constructor
  · intro b t t0 inner hopen hwin
    unfold breakerCall
    rw [hopen]
    simp [hwin]
  · intro t1 t2 t3 t4 t5 t6 hwin
    have h5 : dispatchRun netDown [t1, t2, t3, t4, t5] = ⟨⟨5, some t5⟩, 0, 5, 15⟩ := by
      simp [dispatchRun, dispatchOnce, breakerCall, retryCall, netDown, expState0,
        breaker0, failMax]
    refine ⟨h5, ?_⟩
    have hsplit : ([t1, t2, t3, t4, t5, t6] : List Int) = [t1, t2, t3, t4, t5] ++ [t6] :=
      rfl
    unfold dispatchRun at h5 ⊢
    rw [hsplit, List.foldl_append, h5]
    simp only [List.foldl_cons, List.foldl_nil]
    unfold dispatchOnce breakerCall
    simp [hwin, retryCall, netDown]

theorem C6_breaker_witness :
    ((0 : Int) - 0 < resetTimeout) ∧
      dispatchRun netDown [0, 0, 0, 0, 0] = ⟨⟨5, some 0⟩, 0, 5, 15⟩ ∧
      dispatchRun netDown [0, 0, 0, 0, 0, 0] = ⟨⟨5, some 0⟩, 0, 6, 15⟩ ∧
      breakerCall ⟨5, some 0⟩ 0 false = (⟨5, some 0⟩, false, false) :=
  ⟨by decide, (C6_breaker.2 0 0 0 0 0 0 (by decide)).1,
    (C6_breaker.2 0 0 0 0 0 0 (by decide)).2,
    C6_breaker.1 ⟨5, some 0⟩ 0 0 false rfl (by decide)⟩

/-! ### Sink-write failures and the export counters (claim C8) -/

/-- An export endpoint that succeeds on every call. -/
def netUp : Nat → Bool := fun _ => true

/-- C8 counterexample: a batch whose `send_batch` succeeded but whose
subsequent correlation-sink write raises is counted as an export failure,
because the sink write happens inside the same `try` whose `except`
increments `export_failures` — the counter is not incremented zero times
as claimed. -/
theorem C8_counterexample :
    (dispatchOnce netUp true expState0 0).sent = 1 ∧
      (dispatchOnce netUp true expState0 0).failures ≠ 0 := by decide

/-- C8 (amended): for every batch whose `send_batch` call succeeded, a
failure raised by a subsequent correlation-sink write does not revoke the
batch's sent status: the sent-batches counter is incremented exactly once;
the export-failures counter, however, is incremented once — not zero
times — when the sink write raises, and zero times otherwise. -/
theorem C8_sink_failure (net : Nat → Bool) (w : Bool) (st : ExpState) (t : Int)
    (hok : (breakerCall st.breaker t (retryCall net st.httpCalls).1).2.2 = true) :
    (dispatchOnce net w st t).sent = st.sent + 1 ∧
    (dispatchOnce net w st t).failures = st.failures + (if w then 1 else 0) := by
  unfold dispatchOnce
  simp [hok]

theorem C8_sink_failure_witness :
    (breakerCall expState0.breaker 0 (retryCall netUp expState0.httpCalls).1).2.2 = true ∧
      (dispatchOnce netUp true expState0 0).sent = 0 + 1 ∧
      (dispatchOnce netUp true expState0 0).failures = 0 + 1 :=
  ⟨by decide, (C8_sink_failure netUp true expState0 0 (by decide)).1,
    (C8_sink_failure netUp true expState0 0 (by decide)).2⟩

/-! ### Correlation points per successful batch (claim C7) -/

theorem upsert_keys_mem (a k v : String) :
    ∀ m : List (String × String),
      (a ∈ (upsert m k v).map Prod.fst ↔ a ∈ m.map Prod.fst ∨ a = k) := by
  intro m
  induction m with
  | nil => simp [upsert]
  | cons p rest ih =>
    obtain ⟨pf, ps⟩ := p
    by_cases h : pf = k
    · rw [show upsert ((pf, ps) :: rest) k v = (k, v) :: rest from by simp [upsert, h]]
      simp only [List.map_cons, List.mem_cons]
      constructor
      · rintro (h1 | h1)
        · exact Or.inr h1
        · exact Or.inl (Or.inr h1)
      · rintro ((h1 | h1) | h1)
        · exact Or.inl (h1.trans h)
        · exact Or.inr h1
        · exact Or.inl h1
    · rw [show upsert ((pf, ps) :: rest) k v = (pf, ps) :: upsert rest k v from by
        simp [upsert, h]]
      simp only [List.map_cons, List.mem_cons, ih]
      tauto

theorem upsert_keys_nodup (k v : String) :
    ∀ m : List (String × String), (m.map Prod.fst).Nodup →
      ((upsert m k v).map Prod.fst).Nodup := by
  intro m
  induction m with
  | nil => intro _; simp [upsert]
  | cons p rest ih =>
    intro hnd
    obtain ⟨pf, ps⟩ := p
    simp only [List.map_cons, List.nodup_cons] at hnd
    by_cases h : pf = k
    · rw [show upsert ((pf, ps) :: rest) k v = (k, v) :: rest from by simp [upsert, h]]
      simp only [List.map_cons, List.nodup_cons]
      exact ⟨h ▸ hnd.1, hnd.2⟩
    · rw [show upsert ((pf, ps) :: rest) k v = (pf, ps) :: upsert rest k v from by
        simp [upsert, h]]
      simp only [List.map_cons, List.nodup_cons]
      refine ⟨?_, ih hnd.2⟩
      rw [upsert_keys_mem]
      rintro (hc | hc)
      · exact hnd.1 hc
      · exact h hc

theorem upsert_mem_src (k v : String) :
    ∀ (m : List (String × String)) (p : String × String),
      p ∈ upsert m k v → p ∈ m ∨ p = (k, v) := by
  intro m
  induction m with
  | nil => intro p hp; simp [upsert] at hp; exact Or.inr (by cases p; simp_all)
  | cons q rest ih =>
    intro p hp
    obtain ⟨qf, qs⟩ := q
    by_cases h : qf = k
    · rw [show upsert ((qf, qs) :: rest) k v = (k, v) :: rest from by
        simp [upsert, h]] at hp
      rcases List.mem_cons.mp hp with h1 | h1
      · exact Or.inr h1
      · exact Or.inl (List.mem_cons_of_mem _ h1)
    · rw [show upsert ((qf, qs) :: rest) k v = (qf, qs) :: upsert rest k v from by
        simp [upsert, h]] at hp
      rcases List.mem_cons.mp hp with h1 | h1
      · exact Or.inl (h1 ▸ List.mem_cons_self _ _)
      · rcases ih p h1 with h2 | h2
        · exact Or.inl (List.mem_cons_of_mem _ h2)
        · exact Or.inr h2

/-- The accumulator step of the `seen` dict construction. -/
def seenStep (m : List (String × String)) (s : Span) : List (String × String) :=
  if s.guid ≠ "" ∧ s.traceId ≠ "" then upsert m s.guid s.traceId else m

theorem seenMap_eq_foldl (batch : List Span) :
    seenMap batch = batch.foldl seenStep [] := rfl

theorem seen_fold_nodup (batch : List Span) :
    ∀ acc : List (String × String), (acc.map Prod.fst).Nodup →
      ((batch.foldl seenStep acc).map Prod.fst).Nodup := by
  induction batch with
  | nil => intro acc h; simpa using h
  | cons s rest ih =>
    intro acc h
    simp only [List.foldl_cons]
    apply ih
    unfold seenStep
    by_cases hc : s.guid ≠ "" ∧ s.traceId ≠ ""
    · rw [if_pos hc]; exact upsert_keys_nodup _ _ acc h
    · rw [if_neg hc]; exact h

theorem seen_fold_keys (g : String) (batch : List Span) :
    ∀ acc : List (String × String),
      (g ∈ (batch.foldl seenStep acc).map Prod.fst ↔
        g ∈ acc.map Prod.fst ∨ ∃ s ∈ batch, s.guid = g ∧ g ≠ "" ∧ s.traceId ≠ "") := by
  induction batch with
  | nil => intro acc; simp
  | cons s rest ih =>
    intro acc
    simp only [List.foldl_cons, ih, List.mem_cons]
    unfold seenStep
    by_cases hc : s.guid ≠ "" ∧ s.traceId ≠ ""
    · rw [if_pos hc, upsert_keys_mem]
      constructor
      · rintro ((h1 | h1) | h1)
        · exact Or.inl h1
        · exact Or.inr ⟨s, Or.inl rfl, h1.symm, h1 ▸ hc.1, hc.2⟩
        · obtain ⟨s', hs', h2⟩ := h1
          exact Or.inr ⟨s', Or.inr hs', h2⟩
      · rintro (h1 | ⟨s', hs' | hs', h2⟩)
        · exact Or.inl (Or.inl h1)
        · exact Or.inl (Or.inr (by rw [← h2.1, hs']))
        · exact Or.inr ⟨s', hs', h2⟩
    · rw [if_neg hc]
      constructor
      · rintro (h1 | h1)
        · exact Or.inl h1
        · obtain ⟨s', hs', h2⟩ := h1
          exact Or.inr ⟨s', Or.inr hs', h2⟩
      · rintro (h1 | ⟨s', hs' | hs', h2⟩)
        · exact Or.inl h1
        · exfalso
          subst hs'
          rcases h2 with ⟨hg, hne, ht⟩
          rcases not_and_or.mp hc with hg0 | ht0
          · rw [not_not] at hg0
            rw [hg0] at hg
            exact hne hg.symm
          · rw [not_not] at ht0
            exact ht ht0
        · exact Or.inr ⟨s', hs', h2⟩

theorem seen_fold_src (batch : List Span) :
    ∀ (acc : List (String × String)) (p : String × String),
      p ∈ batch.foldl seenStep acc →
        p ∈ acc ∨ ∃ s ∈ batch, s.guid = p.1 ∧ s.traceId = p.2 := by
  induction batch with
  | nil => intro acc p hp; exact Or.inl hp
  | cons s rest ih =>
    intro acc p hp
    simp only [List.foldl_cons] at hp
    rcases ih (seenStep acc s) p hp with h1 | h1
    · unfold seenStep at h1
      by_cases hc : s.guid ≠ "" ∧ s.traceId ≠ ""
      · rw [if_pos hc] at h1
        rcases upsert_mem_src _ _ acc p h1 with h2 | h2
        · exact Or.inl h2
        · exact Or.inr ⟨s, List.mem_cons_self _ _, by rw [h2], by rw [h2]⟩
      · rw [if_neg hc] at h1
        exact Or.inl h1
    · obtain ⟨s', hs', h2⟩ := h1
      exact Or.inr ⟨s', List.mem_cons_of_mem _ hs', h2⟩

/-- C7 (amended): for each successfully exported batch, exactly one
correlation point is written per unique non-empty `SessionGUID` occurring
in the batch (paired with its non-empty trace id): the written points have
pairwise distinct guids, a guid receives a point exactly when some span of
the batch carries it, and every point carries tags `guid` and `trace_id`
taken from a span of the batch, field value `0`, the write timestamp, and
measurement name `uberAgent:logonTraceMap` or `uberAgent:logoffTraceMap`
chosen by the trace-id prefix (the logon prefix `'1'` selects
`uberAgent:logonTraceMap`). -/
theorem C7_correlation_points (ts : Int) (batch : List Span) :
    ((pointsOf ts batch).map CorrPoint.guid).Nodup ∧
    (∀ g : String, (∃ s ∈ batch, s.guid = g ∧ g ≠ "" ∧ s.traceId ≠ "") ↔
      ∃ p ∈ pointsOf ts batch, p.guid = g) ∧
    (∀ p ∈ pointsOf ts batch, p.value = 0 ∧ p.ts = ts ∧
      p.measurement = (if startsWith1 p.traceId then "uberAgent:logonTraceMap"
        else "uberAgent:logoffTraceMap") ∧
      ∃ s ∈ batch, s.guid = p.guid ∧ s.traceId = p.traceId) := by
  have hmap : (pointsOf ts batch).map CorrPoint.guid = (seenMap batch).map Prod.fst := by
    unfold pointsOf
    rw [List.map_map]
    rfl
  refine ⟨?_, ?_, ?_⟩
  · rw [hmap, seenMap_eq_foldl]
    exact seen_fold_nodup batch [] (by simp)
  · intro g
    have hkeys := seen_fold_keys g batch []
    simp only [List.map_nil, List.not_mem_nil, false_or] at hkeys
    rw [← seenMap_eq_foldl] at hkeys
    constructor
    · intro hex
      have hg : g ∈ (pointsOf ts batch).map CorrPoint.guid := by
        rw [hmap]
        exact hkeys.mpr hex
      obtain ⟨p, hp, hpg⟩ := List.mem_map.mp hg
      exact ⟨p, hp, hpg⟩
    · rintro ⟨p, hp, hpg⟩
      have hg : g ∈ (pointsOf ts batch).map CorrPoint.guid :=
        List.mem_map.mpr ⟨p, hp, hpg⟩
      rw [hmap] at hg
      exact hkeys.mp hg
  · intro p hp
    obtain ⟨q, hq, hpq⟩ := List.mem_map.mp hp
    have hsrc := seen_fold_src batch [] q (by rw [← seenMap_eq_foldl]; exact hq)
    simp only [List.not_mem_nil, false_or] at hsrc
    obtain ⟨s, hs, hsg, hst⟩ := hsrc
    subst hpq
    exact ⟨rfl, rfl, rfl, s, hs, hsg, hst⟩

/-- C7 counterexample: for a successfully exported batch containing the
spec's sample logon span, the single correlation point written carries
measurement name `"uberAgent:logonTraceMap"`, which is neither
`"logonTraceMap"` nor `"logoffTraceMap"` as the claim states. -/
theorem C7_counterexample :
    (pointsOf 0 [spanA]).map CorrPoint.measurement = ["uberAgent:logonTraceMap"] ∧
      ("uberAgent:logonTraceMap" : String) ≠ "logonTraceMap" ∧
      ("uberAgent:logonTraceMap" : String) ≠ "logoffTraceMap" :=
  ⟨by decide, by decide, by decide⟩

theorem C7_correlation_points_witness :
    (∃ p ∈ pointsOf 0 [spanA], p.guid = "abcd1234-0000-0000-0000-000000000000") ∧
      ∀ p ∈ pointsOf 0 [spanA], p.value = 0 ∧ p.ts = 0 ∧
        p.measurement = (if startsWith1 p.traceId then "uberAgent:logonTraceMap"
          else "uberAgent:logoffTraceMap") ∧
        ∃ s ∈ [spanA], s.guid = p.guid ∧ s.traceId = p.traceId :=
  ⟨(C7_correlation_points 0 [spanA]).2.1 "abcd1234-0000-0000-0000-000000000000" |>.mp
      ⟨spanA, by simp, by decide, by decide, by decide⟩,
    fun p hp => (C7_correlation_points 0 [spanA]).2.2 p hp⟩

/-! ### Connection framing (claim C9) -/

theorem dropWhile_head_not {α : Type} (p : α → Bool) :
    ∀ (l : List α) (c : α) (r : List α), l.dropWhile p = c :: r → p c = false := by
  intro l
  induction l with
  | nil => intro c r h; simp [List.dropWhile] at h
  | cons a t ih =>
    intro c r h
    by_cases hp : p a
    · rw [List.dropWhile_cons_of_pos hp] at h
      exact ih c r h
    · rw [List.dropWhile_cons_of_neg hp] at h
      cases h
      simpa using hp

theorem takeWhile_append_stop {α : Type} (p : α → Bool) (a : α) (y : List α)
    (ha : p a = false) :
    ∀ x : List α, (∀ c ∈ x, p c = true) →
      (x ++ a :: y).takeWhile p = x ∧ (x ++ a :: y).dropWhile p = a :: y := by
  intro x
  induction x with
  | nil =>
    intro _
    simp [List.takeWhile, List.dropWhile, ha]
  | cons b t ih =>
    intro hx
    have hb : p b = true := hx b (List.mem_cons_self _ _)
    have ht := ih (fun c hc => hx c (List.mem_cons_of_mem _ hc))
    simp only [List.cons_append, List.takeWhile_cons_of_pos hb,
      List.dropWhile_cons_of_pos hb, ht.1, ht.2, and_self]

theorem splitFirstNl_some_iff (l line rest : List Char) :
    splitFirstNl l = some (line, rest) ↔
      l = line ++ '\n' :: rest ∧ ∀ c ∈ line, notNl c = true := by
  constructor
  · intro h
    unfold splitFirstNl at h
    cases hd : l.dropWhile notNl with
    | nil => rw [hd] at h; simp at h
    | cons c r =>
      rw [hd] at h
      simp only [Option.some.injEq, Prod.mk.injEq] at h
      have hc : notNl c = false := dropWhile_head_not notNl l c r hd
      have hcnl : c = '\n' := by
        by_contra hcc
        rw [show notNl c = true from by simp [notNl, hcc]] at hc
        simp at hc
      constructor
      · rw [← h.1, ← h.2, ← hcnl, ← hd]
        exact (List.takeWhile_append_dropWhile notNl l).symm
      · intro x hx
        rw [← h.1] at hx
        exact List.mem_takeWhile_imp hx
  · rintro ⟨hl, hline⟩
    subst hl
    have := takeWhile_append_stop notNl '\n' rest (by simp [notNl]) line hline
    unfold splitFirstNl
    rw [this.2, this.1]

theorem splitFirstNl_none_iff (l : List Char) :
    splitFirstNl l = none ↔ ∀ c ∈ l, notNl c = true := by
  constructor
  · intro h
    unfold splitFirstNl at h
    cases hd : l.dropWhile notNl with
    | nil => exact List.dropWhile_eq_nil_iff.mp hd
    | cons c r => rw [hd] at h; simp at h
  · intro h
    unfold splitFirstNl
    rw [List.dropWhile_eq_nil_iff.mpr h]

theorem splitFirstNl_rest_lt (l line rest : List Char)
    (h : splitFirstNl l = some (line, rest)) : rest.length < l.length := by
  rw [splitFirstNl_some_iff] at h
  rw [h.1]
  simp only [List.length_append, List.length_cons]
  omega

theorem drainF_nil (f : Nat) : drainF f [] = ([], []) := by
  cases f with
  | zero => rfl
  | succ n => rfl

theorem drainF_congr :
    ∀ (f1 f2 : Nat) (l : List Char), l.length ≤ f1 → l.length ≤ f2 →
      drainF f1 l = drainF f2 l := by
  intro f1
  induction f1 with
  | zero =>
    intro f2 l h1 _
    rw [List.length_eq_zero.mp (Nat.le_zero.mp h1)]
    rw [drainF_nil, drainF_nil]
  | succ n ih =>
    intro f2 l h1 h2
    cases f2 with
    | zero =>
      rw [List.length_eq_zero.mp (Nat.le_zero.mp h2)]
      rw [drainF_nil, drainF_nil]
    | succ m =>
      cases hs : splitFirstNl l with
      | none => simp [drainF, hs]
      | some pr =>
        obtain ⟨line, rest⟩ := pr
        have hlt := splitFirstNl_rest_lt l line rest hs
        simp only [drainF, hs]
        rw [ih m rest (by omega) (by omega)]

theorem drain_none (l : List Char) (h : splitFirstNl l = none) : drain l = (l, []) := by
  unfold drain
  cases hl : l.length with
  | zero => rw [List.length_eq_zero.mp hl]; rfl
  | succ m => simp [drainF, h]

theorem drain_some (l line rest : List Char) (h : splitFirstNl l = some (line, rest)) :
    drain l = ((drain rest).1,
      (if stripTruthy line then [line] else []) ++ (drain rest).2) := by
  have hlt := splitFirstNl_rest_lt l line rest h
  unfold drain
  cases hl : l.length with
  | zero =>
    rw [List.length_eq_zero.mp hl] at h
    rw [show splitFirstNl [] = none from rfl] at h
    simp at h
  | succ m =>
    simp only [drainF, h]
    rw [drainF_congr m rest.length rest (by omega) (Nat.le_refl _)]

theorem specSegsF_congr :
    ∀ (f1 f2 : Nat) (l : List Char), l.length ≤ f1 → l.length ≤ f2 →
      specSegsF f1 l = specSegsF f2 l := by
  intro f1
  induction f1 with
  | zero =>
    intro f2 l h1 _
    rw [List.length_eq_zero.mp (Nat.le_zero.mp h1)]
    cases f2 with
    | zero => rfl
    | succ m => rfl
  | succ n ih =>
    intro f2 l h1 h2
    cases f2 with
    | zero =>
      rw [List.length_eq_zero.mp (Nat.le_zero.mp h2)]
      rfl
    | succ m =>
      cases hs : splitFirstNl l with
      | none => simp [specSegsF, hs]
      | some pr =>
        obtain ⟨line, rest⟩ := pr
        have hlt := splitFirstNl_rest_lt l line rest hs
        simp only [specSegsF, hs]
        rw [ih m rest (by omega) (by omega)]

theorem specSegs_none (l : List Char) (h : splitFirstNl l = none) : specSegs l = [l] := by
  unfold specSegs
  cases hl : l.length with
  | zero => rw [List.length_eq_zero.mp hl]; rfl
  | succ m => simp [specSegsF, h]

theorem specSegs_some (l line rest : List Char)
    (h : splitFirstNl l = some (line, rest)) :
    specSegs l = line :: specSegs rest := by
  have hlt := splitFirstNl_rest_lt l line rest h
  unfold specSegs
  cases hl : l.length with
  | zero =>
    rw [List.length_eq_zero.mp hl] at h
    rw [show splitFirstNl [] = none from rfl] at h
    simp at h
  | succ m =>
    simp only [specSegsF, h]
    rw [specSegsF_congr m rest.length rest (by omega) (Nat.le_refl _)]

theorem specSegs_ne_nil (l : List Char) : specSegs l ≠ [] := by
  cases hs : splitFirstNl l with
  | none => rw [specSegs_none l hs]; simp
  | some pr =>
    obtain ⟨line, rest⟩ := pr
    rw [specSegs_some l line rest hs]
    simp

theorem drain_specSegs :
    ∀ (n : Nat) (l : List Char), l.length ≤ n →
      (specSegs l).getLast? = some ((drain l).1) ∧
      (drain l).2 = (specSegs l).dropLast.filter stripTruthy := by
  intro n
  induction n with
  | zero =>
    intro l h
    rw [List.length_eq_zero.mp (Nat.le_zero.mp h)]
    exact ⟨rfl, rfl⟩
  | succ n ih =>
    intro l h
    cases hs : splitFirstNl l with
    | none =>
      rw [drain_none l hs, specSegs_none l hs]
      exact ⟨rfl, rfl⟩
    | some pr =>
      obtain ⟨line, rest⟩ := pr
      have hlt := splitFirstNl_rest_lt l line rest hs
      rw [drain_some l line rest hs, specSegs_some l line rest hs]
      have hd := ih rest (by omega)
      have hne := specSegs_ne_nil rest
      cases hseg : specSegs rest with
      | nil => exact absurd hseg hne
      | cons a t =>
        rw [hseg] at hd
        constructor
        · rw [List.getLast?_cons_cons]
          exact hd.1
        · rw [show (line :: a :: t).dropLast = line :: (a :: t).dropLast from rfl]
          rw [List.filter_cons, hd.2]
          by_cases hf : stripTruthy line
          · simp [hf]
          · simp [hf]

theorem drain_append :
    ∀ (n : Nat) (x : List Char), x.length ≤ n → ∀ y : List Char,
      drain (x ++ y) = ((drain ((drain x).1 ++ y)).1,
        (drain x).2 ++ (drain ((drain x).1 ++ y)).2) := by
  intro n
  induction n with
  | zero =>
    intro x h y
    rw [List.length_eq_zero.mp (Nat.le_zero.mp h)]
    rw [show drain [] = ([], []) from rfl]
    simp
  | succ n ih =>
    intro x h y
    cases hs : splitFirstNl x with
    | none =>
      rw [drain_none x hs]
      simp
    | some pr =>
      obtain ⟨line, rest⟩ := pr
      have hlt := splitFirstNl_rest_lt x line rest hs
      have hsxy : splitFirstNl (x ++ y) = some (line, rest ++ y) := by
        rw [splitFirstNl_some_iff] at hs ⊢
        exact ⟨by rw [hs.1]; simp, hs.2⟩
      rw [drain_some x line rest hs, drain_some (x ++ y) line (rest ++ y) hsxy]
      rw [ih rest (by omega) y]
      simp [List.append_assoc]

theorem drain_buf_none :
    ∀ (n : Nat) (l : List Char), l.length ≤ n → splitFirstNl ((drain l).1) = none := by
  intro n
  induction n with
  | zero =>
    intro l h
    rw [List.length_eq_zero.mp (Nat.le_zero.mp h)]
    rfl
  | succ n ih =>
    intro l h
    cases hs : splitFirstNl l with
    | none =>
      rw [drain_none l hs]
      exact hs
    | some pr =>
      obtain ⟨line, rest⟩ := pr
      have hlt := splitFirstNl_rest_lt l line rest hs
      rw [drain_some l line rest hs]
      exact ih rest (by omega)

theorem handleChunks_drain :
    ∀ (cs : List (List Char)) (buf : List Char), splitFirstNl buf = none →
      handleChunks buf cs = drain (buf ++ cs.flatten) := by
  intro cs
  induction cs with
  | nil =>
    intro buf h
    rw [show handleChunks buf [] = (buf, []) from rfl]
    rw [show (([] : List (List Char)).flatten) = [] from rfl]
    rw [List.append_nil, drain_none buf h]
  | cons c cs ih =>
    intro buf h
    rw [show handleChunks buf (c :: cs) =
        ((handleChunks (drain (buf ++ c)).1 cs).1,
          (drain (buf ++ c)).2 ++ (handleChunks (drain (buf ++ c)).1 cs).2) from rfl]
    rw [ih _ (drain_buf_none (buf ++ c).length _ (Nat.le_refl _))]
    rw [show (c :: cs).flatten = c ++ cs.flatten from rfl]
    rw [← List.append_assoc]
    rw [drain_append ((buf ++ c).length) (buf ++ c) (Nat.le_refl _) cs.flatten]

/-- C9 (amended): for every sequence of byte chunks received on one
connection, the reader enqueues exactly the complete newline-separated
lines of the concatenated stream whose whitespace-trimmed form is
non-empty, each enqueued verbatim (the surrounding whitespace is NOT
trimmed from the enqueued line; `strip()` is only the emptiness test);
chunk-by-chunk processing equals processing the whole concatenation, so no
line is split across two queue entries, and the partial line after the
last newline is retained in the buffer until its terminator arrives. -/
theorem C9_framing :
    (∀ chunks : List (List Char), handleChunks [] chunks = drain chunks.flatten) ∧
    (∀ l : List Char, (specSegs l).getLast? = some ((drain l).1) ∧
      (drain l).2 = (specSegs l).dropLast.filter stripTruthy) := by
  constructor
  · intro chunks
    have hh := handleChunks_drain chunks [] rfl
    simpa using hh
  · intro l
    exact drain_specSegs l.length l (Nat.le_refl _)

/-- C9 counterexample: the chunk `" a \n"` causes the line `" a "` to be
enqueued verbatim, with its surrounding whitespace intact, not the trimmed
line `"a"` the claim describes. -/
theorem C9_counterexample :
    (handleChunks [] [[' ', 'a', ' ', '\n']]).2 = [[' ', 'a', ' ']] ∧
      pyStrip [' ', 'a', ' '] = ['a'] ∧ ([' ', 'a', ' '] : List Char) ≠ ['a'] :=
  ⟨by decide, by decide, by decide⟩
